import Mathlib

/-!
Shallow embedding of the `bvzlocalization` repository
(files `bvzlocalization.py` and `bvzlocalizationerror.py`).

The repository defines a class `LocalizedResource` (a subclass of Python's
`configparser.SafeConfigParser`) that loads an ini-style resource file named
`<pfx>_<language>.ini` from a resources directory and exposes two lookup
methods, `get_error_msg` and `get_msg`, both of which run their result
through the static method `_format_string`.  Failures are raised as
`LocalizationError` values carrying a message and an integer code.

Modelling choices, all mirroring the Python source:
  * Python strings are Lean `String`s; `str.replace` is embedded as a
    fuel-indexed scan over the character list (`replaceFuel`), with fuel equal
    to the length of the scanned list, which is enough for full traversal.
    Python's behaviour on an empty pattern (interleaving the replacement
    between characters) is irrelevant here: the source only ever replaces
    non-empty literal patterns, and `replaceFuel` returns its input unchanged
    for an empty pattern.
  * The filesystem is abstract: a `FileSystem` supplies which paths exist,
    the `os.path.abspath` resolution, and the parse of an existing ini file
    (either a section/key/value mapping, or a parser failure that the source
    does not translate into a `LocalizationError`).
  * The `configparser` state inherited by `LocalizedResource` is the loaded
    mapping of section name to key/value pairs.  `has_section` matches the
    section name exactly; `has_option` and `get` pass the key through
    `optionxform` (lowercasing), as the standard parser does.  Interpolation
    of `%`-patterns by the underlying parser is out of scope of this
    repository and is not modelled: `get` returns the stored raw value.
  * Methods that the Python code writes on `self` without mutating it are
    embedded as pure functions returning the (unchanged) state next to their
    result, so that absence of mutation is a provable statement.
-/

namespace Bvzlocalization

/-- One scan step of Python `str.replace` over character lists: if the
pattern is a prefix of the remaining input, emit the replacement and skip
the pattern, otherwise emit one character; the fuel bounds the number of
steps and is always called with at least the input length. -/
def replaceFuel : Nat → List Char → List Char → List Char → List Char
  | 0, s, _, _ => s
  | _, s, [], _ => s
  | fuel + 1, s, pat, rep =>
    match s with
    | [] => []
    | c :: rest =>
      if pat.isPrefixOf s then
        rep ++ replaceFuel fuel (s.drop pat.length) pat rep
      else
        c :: replaceFuel fuel rest pat rep

/-- Python `str.replace` on character lists (all non-overlapping occurrences,
scanning left to right). -/
def replaceL (s pat rep : List Char) : List Char :=
  replaceFuel s.length s pat rep

/-- Python `str.replace` on strings. -/
def pyReplace (s pat rep : String) : String :=
  ⟨replaceL s.data pat.data rep.data⟩

/-! The colour constants of `bvzlocalization.py` (`\033` in Python is the
escape character `\x1b`). -/

def BLACK : String := "\x1b[30m"

def RED : String := "\x1b[31m"

def GREEN : String := "\x1b[32m"

def YELLOW : String := "\x1b[33m"

def BLUE : String := "\x1b[34m"

def MAGENTA : String := "\x1b[35m"

def CYAN : String := "\x1b[36m"

def WHITE : String := "\x1b[37m"

def BRIGHT_RED : String := "\x1b[91m"

def BRIGHT_GREEN : String := "\x1b[92m"

def BRIGHT_YELLOW : String := "\x1b[93m"

def BRIGHT_BLUE : String := "\x1b[94m"

def BRIGHT_MAGENTA : String := "\x1b[95m"

def BRIGHT_CYAN : String := "\x1b[96m"

def BRIGHT_WHITE : String := "\x1b[97m"

def ENDC : String := "\x1b[0m"

/-- `LocalizedResource._format_string`: replaces the literal two-character
sequence backslash-`n` by a newline, then each of the sixteen colour tags by
its escape sequence, in the order of the source. -/
def _format_string (msg : String) : String :=
  let output := pyReplace msg "\\n" "\n"
  let output := pyReplace output "\x7b\x7bCOLOR_BLACK\x7d\x7d" BLACK
  let output := pyReplace output "\x7b\x7bCOLOR_RED\x7d\x7d" RED
  let output := pyReplace output "\x7b\x7bCOLOR_GREEN\x7d\x7d" GREEN
  let output := pyReplace output "\x7b\x7bCOLOR_YELLOW\x7d\x7d" YELLOW
  let output := pyReplace output "\x7b\x7bCOLOR_BLUE\x7d\x7d" BLUE
  let output := pyReplace output "\x7b\x7bCOLOR_MAGENTA\x7d\x7d" MAGENTA
  let output := pyReplace output "\x7b\x7bCOLOR_CYAN\x7d\x7d" CYAN
  let output := pyReplace output "\x7b\x7bCOLOR_WHITE\x7d\x7d" WHITE
  let output := pyReplace output "\x7b\x7bCOLOR_BRIGHT_RED\x7d\x7d" BRIGHT_RED
  let output := pyReplace output "\x7b\x7bCOLOR_BRIGHT_GREEN\x7d\x7d" BRIGHT_GREEN
  let output := pyReplace output "\x7b\x7bCOLOR_BRIGHT_YELLOW\x7d\x7d" BRIGHT_YELLOW
  let output := pyReplace output "\x7b\x7bCOLOR_BRIGHT_BLUE\x7d\x7d" BRIGHT_BLUE
  let output := pyReplace output "\x7b\x7bCOLOR_BRIGHT_MAGENTA\x7d\x7d" BRIGHT_MAGENTA
  let output := pyReplace output "\x7b\x7bCOLOR_BRIGHT_CYAN\x7d\x7d" BRIGHT_CYAN
  let output := pyReplace output "\x7b\x7bCOLOR_BRIGHT_WHITE\x7d\x7d" BRIGHT_WHITE
  let output := pyReplace output "\x7b\x7bCOLOR_NONE\x7d\x7d" ENDC
  output

/-- `bvzlocalizationerror.py`: a `LocalizationError` carries a free-text
message and an integer code (`errno`), defaulting to 0. -/
structure LocalizationError where
  message : String
  code : Int
deriving DecidableEq, Repr

/-- The errno property accessor of `LocalizationError`. -/
def LocalizationError.errno (e : LocalizationError) : Int := e.code

/-- An exception surfacing out of a `LocalizedResource` call: either a
`LocalizationError` raised by the source itself, or an exception propagated
from the underlying standard library (`configparser` parse errors and the
`NoSectionError` / `NoOptionError` raised by `get`; the source never
translates those). -/
inductive PyError where
  | localization (e : LocalizationError)
  | libraryError (description : String)
deriving DecidableEq, Repr

/-- A value accepted by `get_error_msg`: the method's assert restricts the
`code` argument to Python `str` or `int`. -/
inductive PyCode where
  | int (n : Int)
  | str (s : String)
deriving DecidableEq, Repr

instance {ε α : Type} [DecidableEq ε] [DecidableEq α] : DecidableEq (Except ε α) :=
  fun x y =>
    match x, y with
    | .ok a, .ok b => decidable_of_iff (a = b) (by simp)
    | .error a, .error b => decidable_of_iff (a = b) (by simp)
    | .ok _, .error _ => isFalse (fun h => Except.noConfusion h)
    | .error _, .ok _ => isFalse (fun h => Except.noConfusion h)

/-- Python `str(code)` on an argument that is a string or an integer
(`str` of an `int` is its decimal representation, with a leading minus sign
when negative, which is what `toString : Int → String` produces). -/
def strOfCode : PyCode → String
  | .int n => toString n
  | .str s => s

/-- The state of a `LocalizedResource` instance after `__init__` has run:
the three path attributes set by the constructor and the section/key/value
mapping that `self.read` loaded into the inherited parser. -/
structure LocalizedResource where
  resources_d : String
  resources_n : String
  resources_p : String
  sections : List (String × List (String × String))
deriving DecidableEq, Repr

/-- `configparser`'s `optionxform`: option keys are lowercased, both when
stored and on every lookup (written as a character-wise map so that it
evaluates by kernel reduction; it agrees with `String.toLower`). -/
def optionxform (s : String) : String := ⟨s.data.map Char.toLower⟩

/-- `configparser.has_section`: the section name is matched exactly. -/
def LocalizedResource.has_section (self : LocalizedResource) (sect : String) : Bool :=
  self.sections.any (fun p => p.1 == sect)

/-- The key/value pairs of a section, when the section exists. -/
def LocalizedResource.section_items (self : LocalizedResource) (sect : String) :
    Option (List (String × String)) :=
  (self.sections.find? (fun p => p.1 == sect)).map Prod.snd

/-- `configparser.has_option`: true when the section exists and holds the
key, the key being passed through `optionxform`. -/
def LocalizedResource.has_option (self : LocalizedResource) (sect key : String) : Bool :=
  match self.section_items sect with
  | none => false
  | some items => items.any (fun kv => kv.1 == optionxform key)

/-- `configparser.get`: the stored raw value of the key (after
`optionxform`) in the section; `none` models the `NoSectionError` or
`NoOptionError` the library raises when it is absent. -/
def LocalizedResource.cfget (self : LocalizedResource) (sect key : String) : Option String :=
  (self.section_items sect).bind
    (fun items => (items.find? (fun kv => kv.1 == optionxform key)).map Prod.snd)

/-- `LocalizedResource.get_error_msg`: checks the `error_codes` section,
then the stringified code, then returns the formatted stored template.  The
state is returned next to the result because the Python method never writes
an attribute of `self`. -/
def LocalizedResource.get_error_msg (self : LocalizedResource) (code : PyCode) :
    Except PyError (String × LocalizedResource) :=
  if ¬ self.has_section "error_codes" then
    .error (.localization
      ⟨"Localization file " ++ self.resources_p ++
        " is corrupt: It is missing the error_codes section.", 2⟩)
  else if ¬ self.has_option "error_codes" (strOfCode code) then
    .error (.localization
      ⟨"Localization file " ++ self.resources_p ++
        " is corrupt: It is missing the error_code: " ++ strOfCode code ++ ".", 3⟩)
  else
    match self.cfget "error_codes" (strOfCode code) with
    | some msg => .ok (_format_string msg, self)
    | none => .error (.libraryError "NoOptionError")

/-- `LocalizedResource.get_msg`: the same shape as `get_error_msg`, keyed on
the `messages` section with codes 4 and 5. -/
def LocalizedResource.get_msg (self : LocalizedResource) (message_key : String) :
    Except PyError (String × LocalizedResource) :=
  if ¬ self.has_section "messages" then
    .error (.localization
      ⟨"Localization file " ++ self.resources_p ++
        " is corrupt: It is missing the messages section.", 4⟩)
  else if ¬ self.has_option "messages" message_key then
    .error (.localization
      ⟨"Localization file " ++ self.resources_p ++
        " is corrupt: It is missing the message: " ++ message_key ++ ".", 5⟩)
  else
    match self.cfget "messages" message_key with
    | some msg => .ok (_format_string msg, self)
    | none => .error (.libraryError "NoOptionError")

/-- The ambient filesystem as the constructor observes it: which paths
exist (`os.path.exists`), how a path resolves to an absolute path
(`os.path.abspath`), and the section/key/value mapping the inherited
`self.read` parses out of an existing ini file — or the parse failure the
underlying parser raises on a malformed file, which the source does not
translate. -/
structure FileSystem where
  path_exists : String → Bool
  abspath : String → String
  read_ini : String → Except String (List (String × List (String × String)))

/-- `os.path.join` for one directory and one file name, POSIX rules: an
absolute second component discards the first, a separator is inserted
unless the directory is empty or already ends in one (the checks are
written on the character data so that they evaluate by kernel
reduction). -/
def os_path_join (d n : String) : String :=
  if n.data.head? = some '/' then n
  else if d = "" then n
  else if d.data.getLast? = some '/' then d ++ n
  else d ++ "/" ++ n

/-- `LocalizedResource.__init__` followed by `_read_resources`: checks the
resources directory, builds the file name `<pfx>_<language>.ini` and the
joined path, checks the file exists (code 1, message with the absolute
path), then loads the mapping. -/
def LocalizedResource.init (fs : FileSystem) (resources_d pfx language : String) :
    Except PyError LocalizedResource :=
  if ¬ fs.path_exists resources_d then
    .error (.localization
      ⟨"Resources directory " ++ resources_d ++ " does not exist.", 0⟩)
  else
    let resources_n := pfx ++ "_" ++ language ++ ".ini"
    let resources_p := os_path_join resources_d resources_n
    if ¬ fs.path_exists resources_p then
      .error (.localization
        ⟨"Cannot locate resource file: " ++ fs.abspath resources_p, 1⟩)
    else
      match fs.read_ini resources_p with
      | .ok sections => .ok ⟨resources_d, resources_n, resources_p, sections⟩
      | .error e => .error (.libraryError e)

/-- Calling the constructor without the `language` argument: the parameter
defaults to `"english"`. -/
def LocalizedResource.init_default (fs : FileSystem) (resources_d pfx : String) :
    Except PyError LocalizedResource :=
  LocalizedResource.init fs resources_d pfx "english"

/-! Concrete sample data: the resource file of the spec's end-to-end
example, `app_english.ini` with an `error_codes` entry
`101=Error ... number ...` and a small `messages` section. -/

/-- The raw template of error code 101 in the end-to-end example. -/
def tmpl101 : String :=
  "Error \x7b\x7bCOLOR_RED\x7d\x7dnumber \x7bnum\x7d\x7b\x7bCOLOR_NONE\x7d\x7d"

/-- The parsed sections of the sample `app_english.ini`. -/
def sections101 : List (String × List (String × String)) :=
  [("error_codes", [("101", tmpl101)]),
   ("messages", [("hello", "Hello world.")])]

/-- The `LocalizedResource` state after loading the sample file from the
directory `/res`. -/
def r101 : LocalizedResource :=
  ⟨"/res", "app_english.ini", "/res/app_english.ini", sections101⟩

/-- A sample filesystem: the directory `/res` and the file
`/res/app_english.ini` exist, the latter parsing to `sections101`; paths
are already absolute. -/
def fs0 : FileSystem where
  path_exists := fun s => s == "/res" || s == "/res/app_english.ini"
  abspath := fun s => s
  read_ini := fun s =>
    if s == "/res/app_english.ini" then .ok sections101
    else .error "MissingSectionHeaderError"

/-! Lemmas about the embedding of `str.replace`. -/

/-- `replaceFuel` on the empty input is empty. -/
theorem replaceFuel_nil (fuel : Nat) (pat rep : List Char) :
    replaceFuel fuel [] pat rep = [] := by
  cases fuel <;> cases pat <;> rfl

/-- `replaceFuel` with an empty pattern returns its input. -/
theorem replaceFuel_nil_pat (fuel : Nat) (s rep : List Char) :
    replaceFuel fuel s [] rep = s := by
  cases fuel <;> rfl

/-- The result of `replaceFuel` does not depend on the fuel, as long as the
fuel covers the input length. -/
theorem replaceFuel_congr (fuel : Nat) :
    ∀ fuel' (s pat rep : List Char), s.length ≤ fuel → s.length ≤ fuel' →
      replaceFuel fuel s pat rep = replaceFuel fuel' s pat rep := by
  induction fuel with
  | zero =>
    intro fuel' s pat rep h _
    have : s = [] := List.eq_nil_of_length_eq_zero (Nat.le_zero.mp h)
    subst this
    rw [replaceFuel_nil, replaceFuel_nil]
  | succ f ih =>
    intro fuel' s pat rep hf hf'
    cases s with
    | nil => rw [replaceFuel_nil, replaceFuel_nil]
    | cons c rest =>
      cases fuel' with
      | zero => simp at hf'
      | succ f' =>
        cases pat with
        | nil => rw [replaceFuel_nil_pat, replaceFuel_nil_pat]
        | cons p ps =>
          simp only [replaceFuel]
          by_cases hpre : (p :: ps).isPrefixOf (c :: rest) = true
          · simp only [hpre, if_true]
            have hlen : ((c :: rest).drop (p :: ps).length).length ≤ f := by
              simp only [List.length_drop]
              simp only [List.length_cons] at hf
              simp only [List.length_cons]
              omega
            have hlen' : ((c :: rest).drop (p :: ps).length).length ≤ f' := by
              simp only [List.length_drop]
              simp only [List.length_cons] at hf'
              simp only [List.length_cons]
              omega
            rw [ih f' _ _ _ hlen hlen']
          · rw [Bool.not_eq_true] at hpre
            simp only [hpre, Bool.false_eq_true, if_false]
            simp only [List.length_cons, Nat.succ_le_succ_iff] at hf hf'
            rw [ih f' _ _ _ hf hf']

/-- Unfolding `replaceL` when the (non-empty) pattern heads the input. -/
theorem replaceL_pos (s pat rep : List Char) (hp : pat ≠ [])
    (h : pat.isPrefixOf s = true) :
    replaceL s pat rep = rep ++ replaceL (s.drop pat.length) pat rep := by
  cases s with
  | nil =>
    cases pat with
    | nil => exact absurd rfl hp
    | cons p ps => simp [List.isPrefixOf] at h
  | cons c rest =>
    cases pat with
    | nil => exact absurd rfl hp
    | cons p ps =>
      show replaceFuel (c :: rest).length (c :: rest) (p :: ps) rep = _
      simp only [List.length_cons, replaceFuel, h, if_true]
      congr 1
      apply replaceFuel_congr
      · simp only [List.length_drop, List.length_cons]
        omega
      · exact Nat.le_refl _

/-- Unfolding `replaceL` when the pattern does not head the input. -/
theorem replaceL_neg (c : Char) (rest pat rep : List Char)
    (h : pat.isPrefixOf (c :: rest) = false) :
    replaceL (c :: rest) pat rep = c :: replaceL rest pat rep := by
  cases pat with
  | nil => simp [List.isPrefixOf] at h
  | cons p ps =>
    show replaceFuel (c :: rest).length (c :: rest) (p :: ps) rep = _
    simp only [List.length_cons, replaceFuel, h, if_false]
    rfl

/-- `replaceL` on the empty input is empty. -/
theorem replaceL_nil (pat rep : List Char) : replaceL [] pat rep = [] :=
  replaceFuel_nil _ _ _

/-- The newline pass of `_format_string` rewrites the leftmost literal
backslash-`n` occurrence to a newline and continues to its right. -/
theorem replaceL_backslash_n (b : List Char) : ∀ a : List Char,
    ¬ ['\\', 'n'] <:+: a →
    replaceL (a ++ ['\\', 'n'] ++ b) ['\\', 'n'] ['\n'] =
      a ++ '\n' :: replaceL b ['\\', 'n'] ['\n'] := by
  intro a
  induction a with
  | nil =>
    intro _
    rw [List.nil_append, List.nil_append,
      replaceL_pos _ _ _ (by simp)
        ( List.isPrefixOf_iff_prefix.mpr (List.prefix_append _ _))]
    rfl
  | cons c a ih =>
    intro hna
    have htail : ¬ ['\\', 'n'] <:+: a := fun h => hna (List.infix_cons h)
    have hpre : (['\\', 'n'] : List Char).isPrefixOf
        (c :: (a ++ ['\\', 'n'] ++ b)) = false := by
      by_contra hx
      rw [Bool.not_eq_false, List.isPrefixOf_iff_prefix] at hx
      obtain ⟨hc, hrest⟩ := List.cons_prefix_cons.mp hx
      cases a with
      | nil =>
        rw [List.nil_append] at hrest
        obtain ⟨hn, -⟩ := List.cons_prefix_cons.mp hrest
        exact absurd hn (by decide)
      | cons a0 a' =>
        have hrest' : ['n'] <+: a0 :: (a' ++ ['\\', 'n'] ++ b) := by
          simpa using hrest
        obtain ⟨hn, -⟩ := List.cons_prefix_cons.mp hrest'
        exact hna (List.IsPrefix.isInfix
          (List.cons_prefix_cons.mpr
            ⟨hc, List.cons_prefix_cons.mpr ⟨hn, List.nil_prefix⟩⟩))
    rw [List.cons_append, List.cons_append, replaceL_neg _ _ _ _ hpre]
    rw [ih htail, List.cons_append]

/-- After the newline pass no literal backslash-`n` remains (fuel-indexed
auxiliary statement). -/
theorem replaceL_no_backslash_n_aux : ∀ (n : Nat) (s : List Char),
    s.length ≤ n → ¬ ['\\', 'n'] <:+: replaceL s ['\\', 'n'] ['\n'] := by
  intro n
  induction n with
  | zero =>
    intro s hs
    have : s = [] := List.eq_nil_of_length_eq_zero (Nat.le_zero.mp hs)
    subst this
    rw [replaceL_nil]
    simp
  | succ m ih =>
    intro s hs
    cases s with
    | nil => rw [replaceL_nil]; simp
    | cons c rest =>
      by_cases hpre : (['\\', 'n'] : List Char).isPrefixOf (c :: rest) = true
      · have hpp := List.isPrefixOf_iff_prefix.mp hpre
        obtain ⟨hc, hrest⟩ := List.cons_prefix_cons.mp hpp
        cases rest with
        | nil => simp at hrest
        | cons r t =>
          obtain ⟨hr, -⟩ := List.cons_prefix_cons.mp hrest
          rw [replaceL_pos _ _ _ (by simp) hpre]
          have hdrop : List.drop (['\\', 'n'] : List Char).length (c :: r :: t) = t := rfl
          rw [hdrop]
          intro hinf
          rcases List.infix_cons_iff.mp hinf with hp | hi
          · obtain ⟨h1, -⟩ := List.cons_prefix_cons.mp hp
            exact absurd h1 (by decide)
          · exact ih t (by simp only [List.length_cons] at hs; omega) hi
      · rw [Bool.not_eq_true] at hpre
        rw [replaceL_neg _ _ _ _ hpre]
        intro hinf
        rcases List.infix_cons_iff.mp hinf with hp | hi
        · obtain ⟨hc, hrest⟩ := List.cons_prefix_cons.mp hp
          cases rest with
          | nil => rw [replaceL_nil] at hrest; simp at hrest
          | cons d t =>
            by_cases hpre2 : (['\\', 'n'] : List Char).isPrefixOf (d :: t) = true
            · rw [replaceL_pos _ _ _ (by simp) hpre2] at hrest
              obtain ⟨h1, -⟩ := List.cons_prefix_cons.mp hrest
              exact absurd h1 (by decide)
            · rw [Bool.not_eq_true] at hpre2
              rw [replaceL_neg _ _ _ _ hpre2] at hrest
              obtain ⟨hd, -⟩ := List.cons_prefix_cons.mp hrest
              rw [Bool.eq_false_iff] at hpre
              exact hpre ( List.isPrefixOf_iff_prefix.mpr
                (List.cons_prefix_cons.mpr
                  ⟨hc, List.cons_prefix_cons.mpr ⟨hd, List.nil_prefix⟩⟩))
        · exact ih rest (by simp only [List.length_cons] at hs; omega) hi

/-- After the newline pass no literal backslash-`n` remains. -/
theorem replaceL_no_backslash_n (s : List Char) :
    ¬ ['\\', 'n'] <:+: replaceL s ['\\', 'n'] ['\n'] :=
  replaceL_no_backslash_n_aux s.length s (Nat.le_refl _)

/-! Lemmas about the `configparser` lookups and the two getters. -/

/-- A key reported present by `has_option` is retrievable by `get`. -/
theorem has_option_cfget (self : LocalizedResource) (sect key : String)
    (h : self.has_option sect key = true) : ∃ v, self.cfget sect key = some v := by
  unfold LocalizedResource.has_option at h
  unfold LocalizedResource.cfget
  cases hit : self.section_items sect with
  | none => rw [hit] at h; simp at h
  | some items =>
    rw [hit] at h
    obtain ⟨kv, hmem, hkv⟩ := List.any_eq_true.mp h
    have hsome : (items.find? (fun kv => kv.1 == optionxform key)).isSome :=
      List.find?_isSome.mpr ⟨kv, hmem, hkv⟩
    obtain ⟨v, hv⟩ := Option.isSome_iff_exists.mp hsome
    exact ⟨v.2, by simp [hv]⟩

/-- A key retrievable by `get` is reported present by `has_option`. -/
theorem cfget_has_option (self : LocalizedResource) (sect key v : String)
    (h : self.cfget sect key = some v) : self.has_option sect key = true := by
  unfold LocalizedResource.cfget at h
  unfold LocalizedResource.has_option
  cases hit : self.section_items sect with
  | none => rw [hit] at h; simp at h
  | some items =>
    rw [hit] at h
    simp only [Option.some_bind, Option.map_eq_some'] at h
    obtain ⟨kv, hfind, -⟩ := h
    have hp := @List.find?_some _ (fun kv => kv.1 == optionxform key) kv items hfind
    exact List.any_eq_true.mpr ⟨kv, List.mem_of_find?_eq_some hfind, hp⟩

/-- `get_error_msg` when the `error_codes` section is missing. -/
theorem get_error_msg_no_section (self : LocalizedResource) (code : PyCode)
    (h : self.has_section "error_codes" = false) :
    self.get_error_msg code = .error (.localization
      ⟨"Localization file " ++ self.resources_p ++
        " is corrupt: It is missing the error_codes section.", 2⟩) := by
  rw [LocalizedResource.get_error_msg]
  simp [h]

/-- `get_error_msg` when the section exists but the stringified code does
not. -/
theorem get_error_msg_no_key (self : LocalizedResource) (code : PyCode)
    (h1 : self.has_section "error_codes" = true)
    (h2 : self.has_option "error_codes" (strOfCode code) = false) :
    self.get_error_msg code = .error (.localization
      ⟨"Localization file " ++ self.resources_p ++
        " is corrupt: It is missing the error_code: " ++ strOfCode code ++ ".", 3⟩) := by
  rw [LocalizedResource.get_error_msg]
  simp [h1, h2]

/-- `get_error_msg` when section and key both exist. -/
theorem get_error_msg_ok (self : LocalizedResource) (code : PyCode) (t : String)
    (h1 : self.has_section "error_codes" = true)
    (h2 : self.cfget "error_codes" (strOfCode code) = some t) :
    self.get_error_msg code = .ok (_format_string t, self) := by
  have ho := cfget_has_option self _ _ _ h2
  rw [LocalizedResource.get_error_msg]
  simp [h1, ho, h2]

/-- `get_msg` when the `messages` section is missing. -/
theorem get_msg_no_section (self : LocalizedResource) (message_key : String)
    (h : self.has_section "messages" = false) :
    self.get_msg message_key = .error (.localization
      ⟨"Localization file " ++ self.resources_p ++
        " is corrupt: It is missing the messages section.", 4⟩) := by
  rw [LocalizedResource.get_msg]
  simp [h]

/-- `get_msg` when the section exists but the key does not. -/
theorem get_msg_no_key (self : LocalizedResource) (message_key : String)
    (h1 : self.has_section "messages" = true)
    (h2 : self.has_option "messages" message_key = false) :
    self.get_msg message_key = .error (.localization
      ⟨"Localization file " ++ self.resources_p ++
        " is corrupt: It is missing the message: " ++ message_key ++ ".", 5⟩) := by
  rw [LocalizedResource.get_msg]
  simp [h1, h2]

/-- `get_msg` when section and key both exist. -/
theorem get_msg_ok (self : LocalizedResource) (message_key t : String)
    (h1 : self.has_section "messages" = true)
    (h2 : self.cfget "messages" message_key = some t) :
    self.get_msg message_key = .ok (_format_string t, self) := by
  have ho := cfget_has_option self _ _ _ h2
  rw [LocalizedResource.get_msg]
  simp [h1, ho, h2]

/-- `__init__` when the resources directory is missing. -/
theorem init_no_dir (fs : FileSystem) (d p l : String)
    (h0 : fs.path_exists d = false) :
    LocalizedResource.init fs d p l = .error (.localization
      ⟨"Resources directory " ++ d ++ " does not exist.", 0⟩) := by
  rw [LocalizedResource.init]
  simp [h0]

/-- `__init__` when the directory exists but the resolved file is
missing. -/
theorem init_no_file (fs : FileSystem) (d p l : String)
    (h1 : fs.path_exists d = true)
    (h2 : fs.path_exists (os_path_join d (p ++ "_" ++ l ++ ".ini")) = false) :
    LocalizedResource.init fs d p l = .error (.localization
      ⟨"Cannot locate resource file: " ++
        fs.abspath (os_path_join d (p ++ "_" ++ l ++ ".ini")), 1⟩) := by
  rw [LocalizedResource.init]
  simp [h1, h2]

/-- `__init__` when directory and file exist and the file parses. -/
theorem init_ok (fs : FileSystem) (d p l : String)
    (sects : List (String × List (String × String)))
    (h1 : fs.path_exists d = true)
    (h2 : fs.path_exists (os_path_join d (p ++ "_" ++ l ++ ".ini")) = true)
    (h3 : fs.read_ini (os_path_join d (p ++ "_" ++ l ++ ".ini")) = .ok sects) :
    LocalizedResource.init fs d p l =
      .ok ⟨d, p ++ "_" ++ l ++ ".ini",
        os_path_join d (p ++ "_" ++ l ++ ".ini"), sects⟩ := by
  rw [LocalizedResource.init]
  simp [h1, h2, h3]

/-- `__init__` when directory and file exist but the parse fails: the
underlying parser's error propagates untranslated. -/
theorem init_parse_error (fs : FileSystem) (d p l e : String)
    (h1 : fs.path_exists d = true)
    (h2 : fs.path_exists (os_path_join d (p ++ "_" ++ l ++ ".ini")) = true)
    (h3 : fs.read_ini (os_path_join d (p ++ "_" ++ l ++ ".ini")) = .error e) :
    LocalizedResource.init fs d p l = .error (.libraryError e) := by
  rw [LocalizedResource.init]
  simp [h1, h2, h3]

/-- The character data of a string is a suffix of the data of any
right-extension by concatenation. -/
theorem data_suffix_append (pre suf : String) : suf.data <:+ (pre ++ suf).data := by
  rw [String.data_append]
  exact List.suffix_append _ _

/-- The code-2 message of `get_error_msg` ends with the documented tail. -/
theorem suffix_msg2 (p : String) :
    ("missing the error_codes section." : String).data <:+
      ("Localization file " ++ p ++
        " is corrupt: It is missing the error_codes section.").data := by
  have h : "Localization file " ++ p ++
      " is corrupt: It is missing the error_codes section."
      = ("Localization file " ++ p ++ " is corrupt: It is ") ++
        "missing the error_codes section." := by
    rw [String.append_assoc ("Localization file " ++ p)]
    rfl
  rw [h]
  exact data_suffix_append _ _

/-- The code-3 message of `get_error_msg` ends with the documented tail,
the stringified code included. -/
theorem suffix_msg3 (p sc : String) :
    ("missing the error_code: " ++ sc ++ ".").data <:+
      ("Localization file " ++ p ++
        " is corrupt: It is missing the error_code: " ++ sc ++ ".").data := by
  have h : "Localization file " ++ p ++
      " is corrupt: It is missing the error_code: " ++ sc ++ "."
      = ("Localization file " ++ p ++ " is corrupt: It is ") ++
        ("missing the error_code: " ++ sc ++ ".") := by
    have hC : (" is corrupt: It is missing the error_code: " : String)
        = " is corrupt: It is " ++ "missing the error_code: " := by decide
    rw [hC]
    simp only [String.append_assoc]
  rw [h]
  exact data_suffix_append _ _

/-! The claim theorems. -/

/-- C1: for every loaded resource mapping and every string-or-integer code,
`get_error_msg` raises a `LocalizationError` with code 2 and a message
ending in "missing the error_codes section." exactly when the
`error_codes` section is missing; raises code 3 with a message ending in
"missing the error_code: <code>." exactly when the section exists but the
stringified code is not one of its keys; and otherwise returns the stored
template with `_format_string` applied and nothing else substituted. -/
theorem get_error_msg_contract (self : LocalizedResource) (code : PyCode) :
    ((∃ m, self.get_error_msg code = .error (.localization ⟨m, 2⟩) ∧
        ("missing the error_codes section." : String).data <:+ m.data) ↔
      self.has_section "error_codes" = false) ∧
    ((∃ m, self.get_error_msg code = .error (.localization ⟨m, 3⟩) ∧
        ("missing the error_code: " ++ strOfCode code ++ ".").data <:+ m.data) ↔
      (self.has_section "error_codes" = true ∧
        self.has_option "error_codes" (strOfCode code) = false)) ∧
    (self.has_section "error_codes" = true →
      self.has_option "error_codes" (strOfCode code) = true →
      ∃ t, self.cfget "error_codes" (strOfCode code) = some t ∧
        self.get_error_msg code = .ok (_format_string t, self)) := by
  by_cases hs : self.has_section "error_codes" = true
  · by_cases ho : self.has_option "error_codes" (strOfCode code) = true
    · obtain ⟨t, ht⟩ := has_option_cfget self _ _ ho
      have hok := get_error_msg_ok self code t hs ht
      refine ⟨?_, ?_, fun _ _ => ⟨t, ht, hok⟩⟩
      · constructor
        · rintro ⟨m, hm, -⟩
          rw [hok] at hm
          simp at hm
        · intro h
          exact absurd hs (by simp [h])
      · constructor
        · rintro ⟨m, hm, -⟩
          rw [hok] at hm
          simp at hm
        · rintro ⟨-, h2⟩
          exact absurd ho (by simp [h2])
    · have ho' : self.has_option "error_codes" (strOfCode code) = false := by
        rw [Bool.not_eq_true] at ho
        exact ho
      have herr := get_error_msg_no_key self code hs ho'
      refine ⟨?_, ?_, fun _ h => absurd h ho⟩
      · constructor
        · rintro ⟨m, hm, -⟩
          rw [herr] at hm
          simp only [Except.error.injEq, PyError.localization.injEq,
            LocalizationError.mk.injEq] at hm
          exact absurd hm.2 (by decide)
        · intro h
          exact absurd hs (by simp [h])
      · constructor
        · intro _
          exact ⟨hs, ho'⟩
        · intro _
          exact ⟨_, herr, suffix_msg3 self.resources_p (strOfCode code)⟩
  · have hs' : self.has_section "error_codes" = false := by
      rw [Bool.not_eq_true] at hs
      exact hs
    have herr := get_error_msg_no_section self code hs'
    refine ⟨⟨fun _ => hs', fun _ => ⟨_, herr, suffix_msg2 self.resources_p⟩⟩, ?_,
      fun h _ => absurd h (by simp [hs'])⟩
    constructor
    · rintro ⟨m, hm, -⟩
      rw [herr] at hm
      simp only [Except.error.injEq, PyError.localization.injEq,
        LocalizationError.mk.injEq] at hm
      exact absurd hm.2 (by decide)
    · rintro ⟨h1, -⟩
      exact absurd h1 (by simp [hs'])

/-- Witness for C1: on the sample resource, error code 101 is present, so
`get_error_msg` returns the formatted stored template. -/
theorem get_error_msg_contract_witness :
    ∃ t, r101.cfget "error_codes" (strOfCode (.int 101)) = some t ∧
      r101.get_error_msg (.int 101) = .ok (_format_string t, r101) :=
  (get_error_msg_contract r101 (.int 101)).2.2 (by decide) (by decide)

/-- C2: for every loaded resource mapping and every string key, `get_msg`
raises code 4 exactly when the `messages` section is missing, code 5
exactly when the section exists but the key is missing from it, and
otherwise returns the stored template with `_format_string` applied,
identically to `get_error_msg`. -/
theorem get_msg_contract (self : LocalizedResource) (message_key : String) :
    ((∃ m, self.get_msg message_key = .error (.localization ⟨m, 4⟩)) ↔
      self.has_section "messages" = false) ∧
    ((∃ m, self.get_msg message_key = .error (.localization ⟨m, 5⟩)) ↔
      (self.has_section "messages" = true ∧
        self.has_option "messages" message_key = false)) ∧
    (self.has_section "messages" = true →
      self.has_option "messages" message_key = true →
      ∃ t, self.cfget "messages" message_key = some t ∧
        self.get_msg message_key = .ok (_format_string t, self)) := by
  by_cases hs : self.has_section "messages" = true
  · by_cases ho : self.has_option "messages" message_key = true
    · obtain ⟨t, ht⟩ := has_option_cfget self _ _ ho
      have hok := get_msg_ok self message_key t hs ht
      refine ⟨?_, ?_, fun _ _ => ⟨t, ht, hok⟩⟩
      · constructor
        · rintro ⟨m, hm⟩
          rw [hok] at hm
          simp at hm
        · intro h
          exact absurd hs (by simp [h])
      · constructor
        · rintro ⟨m, hm⟩
          rw [hok] at hm
          simp at hm
        · rintro ⟨-, h2⟩
          exact absurd ho (by simp [h2])
    · have ho' : self.has_option "messages" message_key = false := by
        rw [Bool.not_eq_true] at ho
        exact ho
      have herr := get_msg_no_key self message_key hs ho'
      refine ⟨?_, ?_, fun _ h => absurd h ho⟩
      · constructor
        · rintro ⟨m, hm⟩
          rw [herr] at hm
          simp only [Except.error.injEq, PyError.localization.injEq,
            LocalizationError.mk.injEq] at hm
          exact absurd hm.2 (by decide)
        · intro h
          exact absurd hs (by simp [h])
      · exact ⟨fun _ => ⟨hs, ho'⟩, fun _ => ⟨_, herr⟩⟩
  · have hs' : self.has_section "messages" = false := by
      rw [Bool.not_eq_true] at hs
      exact hs
    have herr := get_msg_no_section self message_key hs'
    refine ⟨⟨fun _ => hs', fun _ => ⟨_, herr⟩⟩, ?_,
      fun h _ => absurd h (by simp [hs'])⟩
    constructor
    · rintro ⟨m, hm⟩
      rw [herr] at hm
      simp only [Except.error.injEq, PyError.localization.injEq,
        LocalizationError.mk.injEq] at hm
      exact absurd hm.2 (by decide)
    · rintro ⟨h1, -⟩
      exact absurd h1 (by simp [hs'])

/-- Witness for C2: on the sample resource, the key "hello" is present, so
`get_msg` returns the formatted stored template. -/
theorem get_msg_contract_witness :
    ∃ t, r101.cfget "messages" "hello" = some t ∧
      r101.get_msg "hello" = .ok (_format_string t, r101) :=
  (get_msg_contract r101 "hello").2.2 (by decide) (by decide)

/-- C3: construction raises code 0 when the resources directory does not
exist; raises code 1 with the message "Cannot locate resource file:
<absolute resolved path>" when the directory exists but the resolved file
does not; and succeeds when the file exists and parses. -/
theorem init_contract (fs : FileSystem) (d p l : String) :
    (fs.path_exists d = false →
      LocalizedResource.init fs d p l = .error (.localization
        ⟨"Resources directory " ++ d ++ " does not exist.", 0⟩)) ∧
    (fs.path_exists d = true →
      fs.path_exists (os_path_join d (p ++ "_" ++ l ++ ".ini")) = false →
      LocalizedResource.init fs d p l = .error (.localization
        ⟨"Cannot locate resource file: " ++
          fs.abspath (os_path_join d (p ++ "_" ++ l ++ ".ini")), 1⟩)) ∧
    (∀ sects, fs.path_exists d = true →
      fs.path_exists (os_path_join d (p ++ "_" ++ l ++ ".ini")) = true →
      fs.read_ini (os_path_join d (p ++ "_" ++ l ++ ".ini")) = .ok sects →
      LocalizedResource.init fs d p l =
        .ok ⟨d, p ++ "_" ++ l ++ ".ini",
          os_path_join d (p ++ "_" ++ l ++ ".ini"), sects⟩) := by
  exact ⟨init_no_dir fs d p l, init_no_file fs d p l,
    fun sects => init_ok fs d p l sects⟩

/-- Witness for C3: on the sample filesystem, construction from `/res`,
pfx `app` and language `english` succeeds and loads the sample
mapping. -/
theorem init_contract_witness :
    LocalizedResource.init fs0 "/res" "app" "english" =
      .ok ⟨"/res", "app" ++ "_" ++ "english" ++ ".ini",
        os_path_join "/res" ("app" ++ "_" ++ "english" ++ ".ini"), sections101⟩ :=
  (init_contract fs0 "/res" "app" "english").2.2 sections101
    (by decide) (by decide) rfl

/-- C4: on the template consisting of the red tag, "Hello" with a
placeholder, and the reset tag, `_format_string` yields exactly the red
escape sequence, the text with the placeholder verbatim, and the reset
escape sequence. -/
theorem format_color_roundtrip :
    _format_string
        "\x7b\x7bCOLOR_RED\x7d\x7dHello \x7bname\x7d\x7b\x7bCOLOR_NONE\x7d\x7d" =
      RED ++ "Hello \x7bname\x7d" ++ ENDC ∧
    RED = "\x1b[31m" ∧ ENDC = "\x1b[0m" :=
  ⟨by decide, rfl, rfl⟩

/-- C5: the newline pass of `_format_string` replaces every literal
backslash-`n` by an actual newline: it rewrites each occurrence (splitting
at the leftmost one), leaves no occurrence in its output, and on
"line1\n line2" (literal backslash-n) produces an actual newline between
the two words. -/
theorem format_newline :
    (∀ a b : String, ¬ ['\\', 'n'] <:+: a.data →
      pyReplace (a ++ "\\n" ++ b) "\\n" "\n" =
        a ++ "\n" ++ pyReplace b "\\n" "\n") ∧
    (∀ s : String, ¬ ['\\', 'n'] <:+: (pyReplace s "\\n" "\n").data) ∧
    _format_string "line1\\nline2" = "line1\nline2" := by
  refine ⟨fun a b hna => ?_, fun s => replaceL_no_backslash_n s.data, by decide⟩
  apply String.ext
  show replaceL (a ++ "\\n" ++ b).data ['\\', 'n'] ['\n'] = _
  have h1 : (a ++ "\\n" ++ b).data = a.data ++ ['\\', 'n'] ++ b.data := by
    simp [String.data_append]
  rw [h1, replaceL_backslash_n b.data a.data hna]
  show a.data ++ '\n' :: (pyReplace b "\\n" "\n").data = _
  simp [String.data_append]

/-- Witness for C5: the splitting equation at the concrete input
"line1\n line2". -/
theorem format_newline_witness :
    pyReplace ("line1" ++ "\\n" ++ "line2") "\\n" "\n" =
      "line1" ++ "\n" ++ pyReplace "line2" "\\n" "\n" :=
  format_newline.1 "line1" "line2" (by decide)

/-- C6: each of the sixteen recognized colour tags is replaced by its
escape sequence (matched as an exact literal substring), and the
unrecognized tag COLOR_ORANGE passes through `_format_string`
unchanged. -/
theorem format_color_table :
    _format_string "\x7b\x7bCOLOR_BLACK\x7d\x7d" = BLACK ∧
    _format_string "\x7b\x7bCOLOR_RED\x7d\x7d" = RED ∧
    _format_string "\x7b\x7bCOLOR_GREEN\x7d\x7d" = GREEN ∧
    _format_string "\x7b\x7bCOLOR_YELLOW\x7d\x7d" = YELLOW ∧
    _format_string "\x7b\x7bCOLOR_BLUE\x7d\x7d" = BLUE ∧
    _format_string "\x7b\x7bCOLOR_MAGENTA\x7d\x7d" = MAGENTA ∧
    _format_string "\x7b\x7bCOLOR_CYAN\x7d\x7d" = CYAN ∧
    _format_string "\x7b\x7bCOLOR_WHITE\x7d\x7d" = WHITE ∧
    _format_string "\x7b\x7bCOLOR_BRIGHT_RED\x7d\x7d" = BRIGHT_RED ∧
    _format_string "\x7b\x7bCOLOR_BRIGHT_GREEN\x7d\x7d" = BRIGHT_GREEN ∧
    _format_string "\x7b\x7bCOLOR_BRIGHT_YELLOW\x7d\x7d" = BRIGHT_YELLOW ∧
    _format_string "\x7b\x7bCOLOR_BRIGHT_BLUE\x7d\x7d" = BRIGHT_BLUE ∧
    _format_string "\x7b\x7bCOLOR_BRIGHT_MAGENTA\x7d\x7d" = BRIGHT_MAGENTA ∧
    _format_string "\x7b\x7bCOLOR_BRIGHT_CYAN\x7d\x7d" = BRIGHT_CYAN ∧
    _format_string "\x7b\x7bCOLOR_BRIGHT_WHITE\x7d\x7d" = BRIGHT_WHITE ∧
    _format_string "\x7b\x7bCOLOR_NONE\x7d\x7d" = ENDC ∧
    _format_string "\x7b\x7bCOLOR_ORANGE\x7d\x7d" = "\x7b\x7bCOLOR_ORANGE\x7d\x7d" := by
  decide

/-- C7 counterexample: on the sample `app_english.ini` mapping,
`get_error_msg 101` returns "Error <red>number <placeholder><reset>" — the
red escape sits after the word "Error", where the tag stood — and that
string differs from the output the claim names, which moves the escape to
the front and drops "number". -/
theorem get_error_msg_101_counterexample :
    r101.get_error_msg (.int 101) =
      .ok ("Error \x1b[31mnumber \x7bnum\x7d\x1b[0m", r101) ∧
    ("Error \x1b[31mnumber \x7bnum\x7d\x1b[0m" : String) ≠
      "\x1b[31mError \x7bnum\x7d\x1b[0m" := by
  decide

/-- C7 as amended: on any loaded mapping whose `error_codes` section maps
"101" to the template `Error <red tag>number <placeholder><reset tag>`,
`get_error_msg 101` returns exactly "Error \x1b[31mnumber <placeholder>\x1b[0m". -/
theorem get_error_msg_101_amended (self : LocalizedResource)
    (hs : self.has_section "error_codes" = true)
    (hv : self.cfget "error_codes" "101" = some tmpl101) :
    self.get_error_msg (.int 101) =
      .ok ("Error \x1b[31mnumber \x7bnum\x7d\x1b[0m", self) := by
  have hsc : strOfCode (PyCode.int 101) = "101" := rfl
  have h2 : self.cfget "error_codes" (strOfCode (PyCode.int 101)) = some tmpl101 := by
    rw [hsc]
    exact hv
  rw [get_error_msg_ok self (PyCode.int 101) tmpl101 hs h2]
  have hf : _format_string tmpl101 = "Error \x1b[31mnumber \x7bnum\x7d\x1b[0m" := by
    decide
  rw [hf]

/-- Witness for the amended C7, on the sample mapping. -/
theorem get_error_msg_101_amended_witness :
    r101.get_error_msg (.int 101) =
      .ok ("Error \x1b[31mnumber \x7bnum\x7d\x1b[0m", r101) :=
  get_error_msg_101_amended r101 (by decide) (by decide)

/-- Both getters, when they return, return the very state they were called
on: the Python methods never assign an attribute of `self`. -/
theorem get_error_msg_ok_state (self : LocalizedResource) (code : PyCode)
    (m : String) (r' : LocalizedResource)
    (h : self.get_error_msg code = .ok (m, r')) : r' = self := by
  rw [LocalizedResource.get_error_msg] at h
  split at h
  · simp at h
  · split at h
    · simp at h
    · split at h
      · rw [Except.ok.injEq, Prod.mk.injEq] at h
        exact h.2.symm
      · simp at h

/-- The `get_msg` analogue of `get_error_msg_ok_state`. -/
theorem get_msg_ok_state (self : LocalizedResource) (message_key : String)
    (m : String) (r' : LocalizedResource)
    (h : self.get_msg message_key = .ok (m, r')) : r' = self := by
  rw [LocalizedResource.get_msg] at h
  split at h
  · simp at h
  · split at h
    · simp at h
    · split at h
      · rw [Except.ok.injEq, Prod.mk.injEq] at h
        exact h.2.symm
      · simp at h

/-- C8: the constructor binds the instance to the single resolved path
`join(resources_d, pfx + "_" + language + ".ini")`, the language defaults
to "english" when not supplied, and neither getter ever re-points the
instance to a different file. -/
theorem resolved_path_deterministic (fs : FileSystem) (d p l : String) :
    (∀ r, LocalizedResource.init fs d p l = .ok r →
      r.resources_p = os_path_join d (p ++ "_" ++ l ++ ".ini") ∧
      r.resources_n = p ++ "_" ++ l ++ ".ini" ∧
      r.resources_d = d) ∧
    LocalizedResource.init_default fs d p = LocalizedResource.init fs d p "english" ∧
    (∀ (r : LocalizedResource) (c : PyCode) (m : String) r',
      r.get_error_msg c = .ok (m, r') → r'.resources_p = r.resources_p) ∧
    (∀ (r : LocalizedResource) (k m : String) r',
      r.get_msg k = .ok (m, r') → r'.resources_p = r.resources_p) := by
  refine ⟨fun r h => ?_, rfl,
    fun r c m r' h => by rw [get_error_msg_ok_state r c m r' h],
    fun r k m r' h => by rw [get_msg_ok_state r k m r' h]⟩
  by_cases h1 : fs.path_exists d = true
  · by_cases h2 : fs.path_exists (os_path_join d (p ++ "_" ++ l ++ ".ini")) = true
    · cases h3 : fs.read_ini (os_path_join d (p ++ "_" ++ l ++ ".ini")) with
      | ok sects =>
        rw [init_ok fs d p l sects h1 h2 h3, Except.ok.injEq] at h
        subst h
        exact ⟨rfl, rfl, rfl⟩
      | error e =>
        rw [init_parse_error fs d p l e h1 h2 h3] at h
        simp at h
    · rw [Bool.not_eq_true] at h2
      rw [init_no_file fs d p l h1 h2] at h
      simp at h
  · rw [Bool.not_eq_true] at h1
    rw [init_no_dir fs d p l h1] at h
    simp at h

/-- Witness for C8: the sample construction resolves `/res/app_english.ini`. -/
theorem resolved_path_deterministic_witness :
    r101.resources_p = os_path_join "/res" ("app" ++ "_" ++ "english" ++ ".ini") ∧
    r101.resources_n = "app" ++ "_" ++ "english" ++ ".ini" ∧
    r101.resources_d = "/res" :=
  (resolved_path_deterministic fs0 "/res" "app" "english").1 r101 rfl

/-- C9: a lookup, successful or failing, leaves the loaded section/key/value
mapping and the resolved path of the instance unchanged. -/
theorem lookup_frame (self : LocalizedResource) (code : PyCode) (message_key : String) :
    (∀ m r', self.get_error_msg code = .ok (m, r') →
      r'.sections = self.sections ∧ r'.resources_p = self.resources_p) ∧
    (∀ m r', self.get_msg message_key = .ok (m, r') →
      r'.sections = self.sections ∧ r'.resources_p = self.resources_p) :=
  ⟨fun m r' h => by rw [get_error_msg_ok_state self code m r' h]; exact ⟨rfl, rfl⟩,
   fun m r' h => by rw [get_msg_ok_state self message_key m r' h]; exact ⟨rfl, rfl⟩⟩

/-- Witness for C9, at the sample resource and the present key 101. -/
theorem lookup_frame_witness :
    r101.sections = r101.sections ∧ r101.resources_p = r101.resources_p :=
  (lookup_frame r101 (.int 101) "hello").1
    "Error \x1b[31mnumber \x7bnum\x7d\x1b[0m" r101 (by decide)

/-- C10: `get_error_msg` on an integer and on its decimal string
representation are the same call: the source stringifies the code before
every use, so outcome, message and code coincide exactly. -/
theorem get_error_msg_int_str (self : LocalizedResource) (n : Int) :
    self.get_error_msg (.int n) = self.get_error_msg (.str (toString n)) := rfl

end Bvzlocalization
